import Mathlib

/- Shallow embedding of the confidential-token CLI client:
   src/crypto.rs, src/utils.rs, src/commands/{withdraw,transfer,apply_balance,balance}.rs.
   Machine integers are Nat with explicit reductions mod 2^w where overflow matters;
   fallible paths return Option/Except. -/

namespace CTCli

/-- Byte length of a pod ElGamal ciphertext (Pedersen commitment 32 bytes plus decrypt
handle 32 bytes). -/
def ELGAMAL_CIPHERTEXT_LEN : Nat := 64

/-- A pod (byte-level) ElGamal ciphertext as stored on chain: a list of bytes. -/
abbrev PodElGamalCiphertext := List Nat

/-- The value of `PodElGamalCiphertext::zeroed()`: the all-zero 64-byte blob against
which the commands compare the on-chain `available_balance` field. -/
def zeroedElGamal : PodElGamalCiphertext := List.replicate ELGAMAL_CIPHERTEXT_LEN 0

/-- The available-balance reader that appears verbatim in balance.rs lines 49-54,
withdraw.rs lines 56-61, apply_balance.rs lines 43-48 and transfer.rs lines 55-60:
when the on-chain `available_balance` ElGamal ciphertext equals the all-zero pattern
the plaintext is 0; otherwise the authenticated cipher's decryption of
`decryptable_available_balance` is invoked.  The decryption (including the
`try_into` conversion and the `ok_or_else` failure) is passed as a function so that
non-invocation on the zero path is expressible; `none` models the decryption
failure. -/
def readAvailableBalance (available : PodElGamalCiphertext)
    (decryptDecryptable : Unit → Option Nat) : Option Nat :=
  if available = zeroedElGamal then some 0 else decryptDecryptable ()

/-- Modelled from the spec: the authenticated-encryption key `AeKey` (spec section 3,
AK) lives in the zk sdk, library code outside src/; modelled formally by a key
identifier. -/
structure AeKeyV where
  key : Nat
deriving DecidableEq

/-- Modelled from the spec: a ciphertext of the authenticated cipher (`AeCiphertext`),
library code outside src/; modelled formally as the recording of key and plaintext. -/
structure AeCiphertextV where
  key : Nat
  value : Nat
deriving DecidableEq

/-- Modelled from the spec: `aes_key.encrypt(v)` of the library cipher, formal
record of key and plaintext. -/
def aeEncrypt (k : AeKeyV) (v : Nat) : AeCiphertextV := ⟨k.key, v⟩

/-- Modelled from the spec: a Pedersen commitment C = xG + rH recorded by its
committed value and its opening r (the group arithmetic is library code outside
src/). -/
structure PedersenCommitmentV where
  value : Nat
  opening : Nat
deriving DecidableEq

/-- Modelled from the spec: a twisted-ElGamal ciphertext as produced by
`pubkey.encrypt_with(value, opening)` of the library. -/
structure ElGamalCiphertextV where
  pubkey : Nat
  value : Nat
  opening : Nat
deriving DecidableEq

/-- The instructions appearing in the withdraw transaction.  The two verify
instructions record the proof data handed to
`ProofInstruction::encode_verify_proof(None, data)` (withdraw.rs lines 113-117); the
withdraw instruction records the amount, the new decryptable balance, and the two
`ProofLocation::InstructionOffset` values passed to the spl withdraw builder
(withdraw.rs lines 127-149).  The library instruction encoders are outside src/ and
are modelled from the spec as recording their arguments. -/
inductive Instruction where
  | verifyCiphertextCommitmentEquality
      (ct : ElGamalCiphertextV) (comm : PedersenCommitmentV) (amount : Nat)
  | verifyBatchedRangeU64
      (comm : PedersenCommitmentV) (amount : Nat) (bitLength : Nat)
      (builderOpening : Nat)
  | withdrawIx (amount : Nat) (newDecryptableBalance : AeCiphertextV)
      (equalityProofOffset : Int) (rangeProofOffset : Int)
deriving DecidableEq

/-- The random draws made by one withdraw invocation: `PedersenOpening::new_rand()`
at withdraw.rs line 82 (the equality-proof opening), at line 100
(`new_balance_opening`), and the opening generated internally by `Pedersen::new` at
line 101, whose returned value the source discards with `_`.  Randomness is an
input so the flow is a pure function of its draws. -/
structure WithdrawRand where
  eqOpening : Nat
  newBalanceOpening : Nat
  pedersenNewOpening : Nat
deriving DecidableEq

/-- Client-side failure kinds of the withdraw flow, all raised before any
transaction exists. -/
inductive WithdrawError where
  | decryptFailure
  | insufficientBalance
deriving DecidableEq

/-- The withdraw flow of withdraw.rs `execute` from the balance read to the
assembled instruction list: decrypt the available balance with the zero-ciphertext
shortcut (lines 56-61), bail with insufficient balance when
`amount > current_available_balance` (lines 66-70), otherwise encrypt the amount and
commit to it under the one fresh opening (lines 81-86), build the range-proof
inputs, where the commitment comes from `Pedersen::new` with its own internal
opening while the separately drawn `new_balance_opening` goes to the builder
(lines 100-108), AES-encrypt the new balance (lines 120-122) and assemble
`[equality_proof_instruction, range_proof_instruction, withdraw]` with proof
locations -2 and -1 (lines 124-156). -/
def withdrawExecute (elgamalPubkey : Nat) (aesKey : AeKeyV)
    (available : PodElGamalCiphertext) (decryptDecryptable : Unit → Option Nat)
    (amount : Nat) (r : WithdrawRand) : Except WithdrawError (List Instruction) :=
  match readAvailableBalance available decryptDecryptable with
  | none => .error .decryptFailure
  | some currentAvailable =>
    if amount > currentAvailable then
      .error .insufficientBalance
    else
      let newAvailable := currentAvailable - amount
      let withdrawalCt : ElGamalCiphertextV := ⟨elgamalPubkey, amount, r.eqOpening⟩
      let commitment : PedersenCommitmentV := ⟨amount, r.eqOpening⟩
      let eqIx := Instruction.verifyCiphertextCommitmentEquality withdrawalCt
        commitment amount
      let newBalanceCommitment : PedersenCommitmentV :=
        ⟨newAvailable, r.pedersenNewOpening⟩
      let rangeIx := Instruction.verifyBatchedRangeU64 newBalanceCommitment
        newAvailable 64 r.newBalanceOpening
      let newDecryptableBalance := aeEncrypt aesKey newAvailable
      let wIx := Instruction.withdrawIx amount newDecryptableBalance (-2) (-1)
      .ok [eqIx, rangeIx, wIx]

/-- Recognizer for the equality-verify instruction. -/
def isEqVerify : Instruction → Bool
  | .verifyCiphertextCommitmentEquality .. => true
  | _ => false

/-- Recognizer for the range-verify instruction. -/
def isRangeVerify : Instruction → Bool
  | .verifyBatchedRangeU64 .. => true
  | _ => false

/-- Instruction lookup at a signed transaction position. -/
def ixAt (ixs : List Instruction) (i : Int) : Option Instruction :=
  if i < 0 then none else ixs.get? i.toNat

/-- Holds when every withdraw instruction's two ProofLocation offsets resolve,
relative to the withdraw instruction's own position, to an equality-verify and a
range-verify instruction respectively. -/
def offsetsResolve (ixs : List Instruction) : Bool :=
  ixs.enum.all fun p =>
    match p.2 with
    | .withdrawIx _ _ dEq dRange =>
        (((ixAt ixs ((p.1 : Int) + dEq)).map isEqVerify).getD false) &&
        (((ixAt ixs ((p.1 : Int) + dRange)).map isRangeVerify).getD false)
    | _ => true

/-- Failure kinds of the confidential-transfer flow, in the order the source
raises them. -/
inductive TransferError where
  | mintMismatch
  | decryptFailure
  | insufficientBalance
  | amountOutOfRange
deriving DecidableEq

/-- Terminal outcome of the transfer stub: the explanatory text is printed, no
transaction is built or submitted, and `execute` returns `Ok(())`. -/
inductive TransferOutcome where
  | stubNoTransaction
deriving DecidableEq

/-- `MAX_TRANSFER_AMOUNT` of transfer.rs line 70: `(1u64 << 48) - 1`. -/
def MAX_TRANSFER_AMOUNT : Nat := (1 <<< 48) - 1

/-- The confidential-transfer flow of transfer.rs `execute`: mint match (line 36),
available-balance read with the zero-ciphertext shortcut (lines 55-60), the
sufficient-funds check (lines 65-67), then the 48-bit range check (lines 70-73),
then the explanatory prints and `Ok(())` with no transaction (lines 75-144). -/
def transferExecute (fromMint toMint : Nat)
    (fromAvailable : PodElGamalCiphertext)
    (decryptDecryptable : Unit → Option Nat) (amount : Nat) :
    Except TransferError TransferOutcome :=
  if fromMint ≠ toMint then .error .mintMismatch
  else
    match readAvailableBalance fromAvailable decryptDecryptable with
    | none => .error .decryptFailure
    | some availableBalance =>
      if amount > availableBalance then .error .insufficientBalance
      else if amount > MAX_TRANSFER_AMOUNT then .error .amountOutOfRange
      else .ok .stubNoTransaction

/-- The pending-balance recombination of apply_balance.rs line 62 and balance.rs
line 68: `(pending_balance_lo as u64) + ((pending_balance_hi as u64) << 16)` in
u64 arithmetic (the halves are the u32 results of `decrypt_u32`). -/
def recombine_pending (lo hi : Nat) : Nat := (lo + (hi <<< 16)) % 2 ^ 64

/-- The recombination formula exactly as the spec words it,
`u64(lo) | (u64(hi) << 16)`, for comparison against the source's
`recombine_pending`. -/
def recombine_pending_spec (lo hi : Nat) : Nat := lo ||| (hi <<< 16)

/-- The amount split of transfer.rs lines 108-109:
`amount_lo = amount & 0xFFFF`, `amount_hi = amount >> 16`. -/
def split_amount (x : Nat) : Nat × Nat := (x &&& 65535, x >>> 16)

/-- Decrypted view of the confidential-extension fields that apply_balance.rs
reads: available balance, the two decrypted pending halves (u32 discrete-log
results) and the credit counter. -/
structure PendingState where
  available : Nat
  pendingLo : Nat
  pendingHi : Nat
  creditCounter : Nat
deriving DecidableEq

/-- Decrypted pending balance of a state, recombined as at apply_balance.rs
line 62. -/
def pendingOf (s : PendingState) : Nat := recombine_pending s.pendingLo s.pendingHi

/-- Result of the apply-balance client decision: either the early `Ok(())` return
with no transaction when the pending balance is zero (apply_balance.rs lines
66-69), or a submitted apply instruction carrying the new decryptable balance and
the expected credit counter (lines 72-105). -/
inductive ApplyResult where
  | noOp
  | submitted (newDecryptableBalance : Nat) (expectedCounter : Nat)
deriving DecidableEq

/-- The apply-balance client decision of apply_balance.rs lines 62-105 on the
decrypted state. -/
def applyClientStep (s : PendingState) : ApplyResult :=
  if pendingOf s = 0 then .noOp
  else .submitted (s.available + pendingOf s) s.creditCounter

/-- Modelled from the spec: the on-chain `apply_pending_balance` effect.  The
on-chain token program is not part of src/; per spec section 4.6 (apply-pending)
and section 8 scenario 2, a successful apply folds pending into available, zeroes
the pending ciphertexts and resets the credit counter. -/
def onChainApply (s : PendingState) : PendingState :=
  { available := s.available + pendingOf s
    pendingLo := 0
    pendingHi := 0
    creditCounter := 0 }

/-- Modelled from the spec: the deterministic seed derivation that
`new_from_signer` performs inside the zk sdk (library code outside src/) — per
spec section 4.1 a pure function of the signer's secret material and a
per-purpose domain tag composed with the supplied public seed.  The concrete
mixing function stands in for the library's hash; only its purity matters for the
claims. -/
def seedDerive (tag : List Nat) (signerBytes : List Nat) : List Nat :=
  (List.range 32).map fun i =>
    (tag ++ signerBytes).foldl (fun acc b => (acc * 131 + b + 1) % 256) i

/-- crypto.rs lines 7-13: `ElGamalKeypair::new_from_signer(signer, b"")` — the
ElGamal derivation domain with the empty public seed appended. -/
def derive_elgamal_keypair (signerBytes : List Nat) : List Nat :=
  seedDerive [0] (signerBytes ++ [])

/-- crypto.rs lines 15-17: `AeKey::new_from_signer(signer, b"")` — the
authenticated-encryption derivation domain with the empty public seed appended. -/
def derive_aes_key (signerBytes : List Nat) : List Nat :=
  seedDerive [1] (signerBytes ++ [])

/-- `u64::MAX`. -/
def U64_MAX : Nat := 2 ^ 64 - 1

/-- `10u64.pow(decimals as u32)` under overflow-checked semantics: `none` models
the overflow panic (the computation leaves u64 range). -/
def pow10Checked (decimals : Nat) : Option Nat :=
  if 10 ^ decimals ≤ U64_MAX then some (10 ^ decimals) else none

/-- utils.rs lines 9-14 `format_amount`, under overflow-checked semantics: the
whole/fraction digit pair `(amount / divisor, amount % divisor)`; `none` models a
panic of the `pow`.  A non-overflowed divisor is positive, so the division and
modulo themselves cannot panic. -/
def format_amount (amount decimals : Nat) : Option (Nat × Nat) :=
  (pow10Checked decimals).map fun divisor => (amount / divisor, amount % divisor)

/-- commands/mod.rs lines 18-19: `decimals` is a CLI-supplied u8 defaulting
to 9. -/
def DEFAULT_DECIMALS : Nat := 9

/-- Helper: the withdraw flow on a readable balance with a sufficient amount
reduces to the explicit three-instruction list. -/
theorem withdrawExecute_eq_ok (pk : Nat) (k : AeKeyV) (ct : PodElGamalCiphertext)
    (d : Unit → Option Nat) (amount avail : Nat) (r : WithdrawRand)
    (hread : readAvailableBalance ct d = some avail) (hle : amount ≤ avail) :
    withdrawExecute pk k ct d amount r =
      .ok [Instruction.verifyCiphertextCommitmentEquality
              ⟨pk, amount, r.eqOpening⟩ ⟨amount, r.eqOpening⟩ amount,
           Instruction.verifyBatchedRangeU64
              ⟨avail - amount, r.pedersenNewOpening⟩ (avail - amount) 64
              r.newBalanceOpening,
           Instruction.withdrawIx amount (aeEncrypt k (avail - amount))
              (-2) (-1)] := by
  unfold withdrawExecute
  rw [hread]
  simp [Nat.not_lt.mpr hle]

/-- Helper: the withdraw flow bails with the insufficient-balance error, producing
no instruction list, when the requested amount exceeds the decrypted available
balance. -/
theorem withdrawExecute_insufficient (pk : Nat) (k : AeKeyV)
    (ct : PodElGamalCiphertext) (d : Unit → Option Nat) (amount avail : Nat)
    (r : WithdrawRand) (hread : readAvailableBalance ct d = some avail)
    (hgt : avail < amount) :
    withdrawExecute pk k ct d amount r = .error .insufficientBalance := by
  unfold withdrawExecute
  rw [hread]
  simp [hgt]

/-- C1: every withdraw invocation that passes the client-side balance check
assembles exactly three instructions in the order
[verify-ciphertext-commitment-equality, verify-batched-range-u64, withdraw]; the
withdraw instruction encodes ProofLocation offsets -2 (equality proof) and -1
(range proof), and those offsets resolve to the actual positions of the verify
instructions relative to the withdraw instruction. -/
theorem withdraw_recipe_offsets (pk : Nat) (k : AeKeyV)
    (ct : PodElGamalCiphertext) (d : Unit → Option Nat) (amount avail : Nat)
    (r : WithdrawRand) (hread : readAvailableBalance ct d = some avail)
    (hle : amount ≤ avail) :
    ∃ ixs : List Instruction,
      withdrawExecute pk k ct d amount r = .ok ixs ∧
      ixs.length = 3 ∧
      ixs.get? 0 = some (Instruction.verifyCiphertextCommitmentEquality
        ⟨pk, amount, r.eqOpening⟩ ⟨amount, r.eqOpening⟩ amount) ∧
      ixs.get? 1 = some (Instruction.verifyBatchedRangeU64
        ⟨avail - amount, r.pedersenNewOpening⟩ (avail - amount) 64
        r.newBalanceOpening) ∧
      ixs.get? 2 = some (Instruction.withdrawIx amount
        (aeEncrypt k (avail - amount)) (-2) (-1)) ∧
      offsetsResolve ixs = true := by
  refine ⟨_, withdrawExecute_eq_ok pk k ct d amount avail r hread hle,
    rfl, rfl, rfl, rfl, ?_⟩
  rfl

/-- C1 witness: a concrete withdraw of 0 against a freshly configured account
(all-zero available-balance ciphertext, decrypted balance 0). -/
theorem withdraw_recipe_offsets_witness :
    readAvailableBalance zeroedElGamal (fun _ => none) = some 0 ∧ 0 ≤ 0 ∧
    (∃ ixs : List Instruction,
      withdrawExecute 0 ⟨0⟩ zeroedElGamal (fun _ => none) 0 ⟨1, 2, 3⟩ = .ok ixs ∧
      ixs.length = 3 ∧
      ixs.get? 0 = some (Instruction.verifyCiphertextCommitmentEquality
        ⟨0, 0, (1 : Nat)⟩ ⟨0, (1 : Nat)⟩ 0) ∧
      ixs.get? 1 = some (Instruction.verifyBatchedRangeU64
        ⟨0 - 0, (3 : Nat)⟩ (0 - 0) 64 2) ∧
      ixs.get? 2 = some (Instruction.withdrawIx 0
        (aeEncrypt ⟨0⟩ (0 - 0)) (-2) (-1)) ∧
      offsetsResolve ixs = true) :=
  ⟨by decide, by decide,
   withdraw_recipe_offsets 0 ⟨0⟩ zeroedElGamal (fun _ => none) 0 0 ⟨1, 2, 3⟩
     (by decide) (by decide)⟩

/-- C2 (code bug evidence): evaluating the withdraw flow at a concrete input —
balance 0, amount 0, equality-proof opening 5, `new_balance_opening` 7, internal
`Pedersen::new` opening 11 — the range-verify instruction carries a commitment
whose opening is the internal draw 11 while the opening handed to the range-proof
builder is the unrelated draw 7: the commitment and the builder opening disagree,
contradicting the claim that they are the same fresh opening. -/
theorem withdraw_range_opening_mismatch :
    withdrawExecute 0 ⟨0⟩ zeroedElGamal (fun _ => none) 0 ⟨5, 7, 11⟩ =
      .ok [Instruction.verifyCiphertextCommitmentEquality
             ⟨0, 0, 5⟩ ⟨0, 5⟩ 0,
           Instruction.verifyBatchedRangeU64 ⟨0, 11⟩ 0 64 7,
           Instruction.withdrawIx 0 ⟨0, 0⟩ (-2) (-1)] ∧
    PedersenCommitmentV.opening ⟨0, 11⟩ ≠ (7 : Nat) := by
  constructor
  · rfl
  · decide

/-- C3: with decrypted available balance `avail`, withdrawing exactly `avail`
passes the client-side pre-check and an instruction list is assembled, while
withdrawing `avail + 1` fails with the insufficient-balance error, so no
transaction is built or submitted. -/
theorem withdraw_precheck_boundary (pk : Nat) (k : AeKeyV)
    (ct : PodElGamalCiphertext) (d : Unit → Option Nat) (avail : Nat)
    (r : WithdrawRand) (hread : readAvailableBalance ct d = some avail) :
    (∃ ixs : List Instruction, withdrawExecute pk k ct d avail r = .ok ixs) ∧
    withdrawExecute pk k ct d (avail + 1) r = .error .insufficientBalance :=
  ⟨⟨_, withdrawExecute_eq_ok pk k ct d avail avail r hread (Nat.le_refl avail)⟩,
   withdrawExecute_insufficient pk k ct d (avail + 1) avail r hread
     (Nat.lt_succ_self avail)⟩

/-- C3 witness: concrete account with decrypted available balance 4 (nonzero
ciphertext, authenticated decryption yields 4). -/
theorem withdraw_precheck_boundary_witness :
    readAvailableBalance (1 :: List.replicate 63 0) (fun _ => some 4) = some 4 ∧
    ((∃ ixs : List Instruction,
        withdrawExecute 0 ⟨0⟩ (1 :: List.replicate 63 0) (fun _ => some 4) 4
          ⟨1, 2, 3⟩ = .ok ixs) ∧
     withdrawExecute 0 ⟨0⟩ (1 :: List.replicate 63 0) (fun _ => some 4) (4 + 1)
        ⟨1, 2, 3⟩ = .error .insufficientBalance) :=
  ⟨by decide,
   withdraw_precheck_boundary 0 ⟨0⟩ (1 :: List.replicate 63 0)
     (fun _ => some 4) 4 ⟨1, 2, 3⟩ (by decide)⟩

/-- C4: when the on-chain available-balance ciphertext equals the all-zero
pattern, the shared balance reader (used by the balance, withdraw, apply-balance
and transfer commands) decodes plaintext 0, and the authenticated cipher's
decryption is not invoked: the result is independent of the decryption
function. -/
theorem zero_ciphertext_shortcut (ct : PodElGamalCiphertext)
    (d1 d2 : Unit → Option Nat) (h : ct = zeroedElGamal) :
    readAvailableBalance ct d1 = some 0 ∧
    readAvailableBalance ct d1 = readAvailableBalance ct d2 := by
  subst h
  constructor <;> simp [readAvailableBalance]

/-- C4 witness: the all-zero ciphertext with a failing cipher on one side and a
cipher returning 7 on the other. -/
theorem zero_ciphertext_shortcut_witness :
    zeroedElGamal = zeroedElGamal ∧
    (readAvailableBalance zeroedElGamal (fun _ => none) = some 0 ∧
     readAvailableBalance zeroedElGamal (fun _ => none) =
       readAvailableBalance zeroedElGamal (fun _ => some 7)) :=
  ⟨rfl, zero_ciphertext_shortcut zeroedElGamal (fun _ => none)
    (fun _ => some 7) rfl⟩

/-- Helper: OR of a value below 2^16 with a value shifted left by 16 is their
sum (the bit ranges are disjoint). -/
theorem lor_shiftLeft_eq_add {lo hi : Nat} (h : lo < 2 ^ 16) :
    lo ||| (hi <<< 16) = lo + (hi <<< 16) := by
  apply Nat.eq_of_testBit_eq
  intro j
  rw [Nat.testBit_or, Nat.testBit_shiftLeft]
  rw [show lo + hi <<< 16 = 2 ^ 16 * hi + lo by rw [Nat.shiftLeft_eq]; ring]
  rw [Nat.testBit_mul_pow_two_add hi h j]
  by_cases hj : j < 16
  · have hge : ¬(16 ≤ j) := by omega
    simp [hj, hge]
  · have hge : 16 ≤ j := by omega
    have hlo : lo.testBit j = false :=
      Nat.testBit_lt_two_pow
        (lt_of_lt_of_le h (Nat.pow_le_pow_right (by norm_num) hge))
    simp [hj, hge, hlo]

/-- C5 fails as stated: at decrypted halves lo = 65536 and hi = 1 (both valid u32
discrete-log results; the low half exceeds 16 bits once several deposits have
accumulated) the source recombination `lo + (hi << 16)` yields 131072 while the
claimed formula `lo | (hi << 16)` yields 65536. -/
theorem recombine_or_counterexample :
    recombine_pending 65536 1 = 131072 ∧
    recombine_pending_spec 65536 1 = 65536 ∧
    recombine_pending 65536 1 ≠ recombine_pending_spec 65536 1 := by
  refine ⟨by decide, by decide, by decide⟩

/-- C5 amended: the implemented recombination is `lo + (hi << 16)` in u64; it
coincides with the claimed OR formula whenever the low half is below 2^16 (with
the halves u32-bounded as `decrypt_u32` guarantees), and split and recombine are
mutual inverses: recombining a split value in [0, 2^48) restores it, and
splitting a recombination with lo below 2^16 restores the halves. -/
theorem recombine_split_amended :
    (∀ lo hi : Nat, lo < 2 ^ 16 → hi < 2 ^ 32 →
        recombine_pending lo hi = recombine_pending_spec lo hi) ∧
    (∀ x : Nat, x < 2 ^ 48 →
        recombine_pending (split_amount x).1 (split_amount x).2 = x) ∧
    (∀ lo hi : Nat, lo < 2 ^ 16 → hi < 2 ^ 32 →
        split_amount (recombine_pending lo hi) = (lo, hi)) := by
  have hshift : ∀ n : Nat, n <<< 16 = n * 65536 := fun n => by
    rw [Nat.shiftLeft_eq]
    try norm_num
  have h16 : (2 : Nat) ^ 16 = 65536 := by decide
  have h32 : (2 : Nat) ^ 32 = 4294967296 := by decide
  have h48 : (2 : Nat) ^ 48 = 281474976710656 := by decide
  have h64 : (2 : Nat) ^ 64 = 18446744073709551616 := by decide
  have h65535 : (65535 : Nat) = 2 ^ 16 - 1 := by decide
  refine ⟨?_, ?_, ?_⟩
  · intro lo hi hlo hhi
    have hlt : lo + hi <<< 16 < 2 ^ 64 := by
      rw [hshift, h64]
      rw [h16] at hlo
      rw [h32] at hhi
      omega
    unfold recombine_pending recombine_pending_spec
    rw [lor_shiftLeft_eq_add hlo, Nat.mod_eq_of_lt hlt]
  · intro x hx
    unfold recombine_pending split_amount
    rw [h65535, Nat.and_pow_two_sub_one_eq_mod, Nat.shiftRight_eq_div_pow,
      hshift]
    rw [h16, h64]
    rw [h48] at hx
    omega
  · intro lo hi hlo hhi
    unfold recombine_pending split_amount
    rw [h65535, Nat.and_pow_two_sub_one_eq_mod, Nat.shiftRight_eq_div_pow,
      hshift]
    rw [h16, h64]
    rw [h16] at hlo
    rw [h32] at hhi
    simp only [Prod.mk.injEq]
    omega

/-- C5 amended witness: concrete instances of all three conjuncts. -/
theorem recombine_split_amended_witness :
    recombine_pending 7 9 = recombine_pending_spec 7 9 ∧
    recombine_pending (split_amount 123456789).1 (split_amount 123456789).2 =
      123456789 ∧
    split_amount (recombine_pending 7 9) = (7, 9) :=
  ⟨recombine_split_amended.1 7 9 (by decide) (by decide),
   recombine_split_amended.2.1 123456789 (by decide),
   recombine_split_amended.2.2 7 9 (by decide) (by decide)⟩

/-- C6 fails as stated: a concrete confidential-transfer invocation that passes
the mint-match, sufficient-funds and range validations returns the successful
stub outcome — `Ok(())`, exit code 0, no transaction — rather than terminating as
a failure of kind unsupported-operation. -/
theorem transfer_stub_success_counterexample :
    transferExecute 1 1 zeroedElGamal (fun _ => none) 0 =
      .ok .stubNoTransaction := by
  rfl

/-- C6 amended: every confidential-transfer invocation that passes the
mint-match, sufficient-funds and 48-bit range validations emits no transaction
and terminates successfully (`Ok(())`, exit code 0) after printing the limitation
notice; the code defines no unsupported-operation error kind. -/
theorem transfer_stub_no_transaction (mintFrom mintTo : Nat)
    (ct : PodElGamalCiphertext) (d : Unit → Option Nat) (amount avail : Nat)
    (hm : mintFrom = mintTo) (hread : readAvailableBalance ct d = some avail)
    (hfunds : amount ≤ avail) (hrange : amount ≤ MAX_TRANSFER_AMOUNT) :
    transferExecute mintFrom mintTo ct d amount = .ok .stubNoTransaction := by
  subst hm
  unfold transferExecute
  simp [hread, Nat.not_lt.mpr hfunds, Nat.not_lt.mpr hrange]

/-- C6 amended witness: the concrete passing invocation. -/
theorem transfer_stub_no_transaction_witness :
    (1 : Nat) = 1 ∧
    readAvailableBalance zeroedElGamal (fun _ => none) = some 0 ∧
    0 ≤ 0 ∧ 0 ≤ MAX_TRANSFER_AMOUNT ∧
    transferExecute 1 1 zeroedElGamal (fun _ => none) 0 =
      .ok .stubNoTransaction :=
  ⟨rfl, by decide, by decide, by decide,
   transfer_stub_no_transaction 1 1 zeroedElGamal (fun _ => none) 0 0 rfl
     (by decide) (by decide) (by decide)⟩

/-- C7 fails as stated: on two same-mint accounts whose sender has available
balance 0, an amount of 2^48 is rejected with the insufficient-balance error —
because the sufficient-funds check runs before the range check — and not with
amount-out-of-range. -/
theorem transfer_order_counterexample :
    transferExecute 1 1 zeroedElGamal (fun _ => none) (2 ^ 48) =
      .error .insufficientBalance ∧
    TransferError.insufficientBalance ≠ TransferError.amountOutOfRange := by
  refine ⟨by rfl, by decide⟩

/-- C7 amended: provided the sender's decrypted balance covers the amount (here
available at least 2^48; the sufficient-funds check precedes the range check), a
same-mint confidential transfer of 2^48 is rejected with amount-out-of-range,
while 2^48 - 1 passes the range check and proceeds to the stub, which returns
success with no transaction. -/
theorem transfer_range_boundary (mintFrom mintTo : Nat)
    (ct : PodElGamalCiphertext) (d : Unit → Option Nat) (avail : Nat)
    (hm : mintFrom = mintTo) (hread : readAvailableBalance ct d = some avail)
    (hge : 2 ^ 48 ≤ avail) :
    transferExecute mintFrom mintTo ct d (2 ^ 48) = .error .amountOutOfRange ∧
    transferExecute mintFrom mintTo ct d (2 ^ 48 - 1) =
      .ok .stubNoTransaction := by
  subst hm
  have h1 : ¬ avail < 2 ^ 48 := Nat.not_lt.mpr hge
  have h2 : MAX_TRANSFER_AMOUNT < 2 ^ 48 := by decide
  have h3 : ¬ avail < 2 ^ 48 - 1 := by omega
  have h4 : ¬ MAX_TRANSFER_AMOUNT < 2 ^ 48 - 1 := by decide
  have hne : ¬ (mintFrom ≠ mintFrom) := fun hc => hc rfl
  constructor
  · unfold transferExecute
    rw [if_neg hne, hread]
    show (if avail < 2 ^ 48 then
            Except.error TransferError.insufficientBalance
          else if MAX_TRANSFER_AMOUNT < 2 ^ 48 then
            Except.error TransferError.amountOutOfRange
          else Except.ok TransferOutcome.stubNoTransaction) =
        Except.error TransferError.amountOutOfRange
    rw [if_neg h1, if_pos h2]
  · unfold transferExecute
    rw [if_neg hne, hread]
    show (if avail < 2 ^ 48 - 1 then
            Except.error TransferError.insufficientBalance
          else if MAX_TRANSFER_AMOUNT < 2 ^ 48 - 1 then
            Except.error TransferError.amountOutOfRange
          else Except.ok TransferOutcome.stubNoTransaction) =
        Except.ok TransferOutcome.stubNoTransaction
    rw [if_neg h3, if_neg h4]

/-- C7 amended witness: sender balance exactly 2^48 on a nonzero ciphertext. -/
theorem transfer_range_boundary_witness :
    (1 : Nat) = 1 ∧
    readAvailableBalance (1 :: List.replicate 63 0) (fun _ => some (2 ^ 48)) =
      some (2 ^ 48) ∧
    2 ^ 48 ≤ 2 ^ 48 ∧
    (transferExecute 1 1 (1 :: List.replicate 63 0) (fun _ => some (2 ^ 48))
        (2 ^ 48) = .error .amountOutOfRange ∧
     transferExecute 1 1 (1 :: List.replicate 63 0) (fun _ => some (2 ^ 48))
        (2 ^ 48 - 1) = .ok .stubNoTransaction) :=
  ⟨rfl, by decide, Nat.le_refl _,
   transfer_range_boundary 1 1 (1 :: List.replicate 63 0)
     (fun _ => some (2 ^ 48)) (2 ^ 48) rfl (by decide) (Nat.le_refl _)⟩

/-- C8: after a successful on-chain apply the pending balance is zero, and an
apply-balance invocation whose decrypted pending balance is zero is a no-op: it
returns success without building or submitting any transaction. -/
theorem apply_pending_idempotent (s : PendingState) :
    pendingOf (onChainApply s) = 0 ∧
    applyClientStep (onChainApply s) = .noOp ∧
    (∀ t : PendingState, pendingOf t = 0 → applyClientStep t = .noOp) := by
  have h0 : pendingOf (onChainApply s) = 0 := by
    show recombine_pending 0 0 = 0
    decide
  refine ⟨h0, ?_, ?_⟩
  · unfold applyClientStep
    rw [h0]
    simp
  · intro t ht
    unfold applyClientStep
    simp [ht]

/-- C8 witness: a concrete state before and after apply, and a concrete
zero-pending state. -/
theorem apply_pending_idempotent_witness :
    pendingOf (onChainApply ⟨5, 3, 2, 7⟩) = 0 ∧
    applyClientStep (onChainApply ⟨5, 3, 2, 7⟩) = .noOp ∧
    applyClientStep ⟨9, 0, 0, 0⟩ = .noOp :=
  ⟨(apply_pending_idempotent ⟨5, 3, 2, 7⟩).1,
   (apply_pending_idempotent ⟨5, 3, 2, 7⟩).2.1,
   (apply_pending_idempotent ⟨5, 3, 2, 7⟩).2.2 ⟨9, 0, 0, 0⟩ (by decide)⟩

/-- C9: key derivation is deterministic — two calls with the same signer bytes
yield byte-identical ElGamal keypairs, and likewise byte-identical AES keys. -/
theorem derive_keys_deterministic (s1 s2 : List Nat) (h : s1 = s2) :
    derive_elgamal_keypair s1 = derive_elgamal_keypair s2 ∧
    derive_aes_key s1 = derive_aes_key s2 := by
  subst h
  exact ⟨rfl, rfl⟩

/-- C9 witness: two runs on a concrete signer. -/
theorem derive_keys_deterministic_witness :
    ([1, 2, 3] : List Nat) = [1, 2, 3] ∧
    (derive_elgamal_keypair [1, 2, 3] = derive_elgamal_keypair [1, 2, 3] ∧
     derive_aes_key [1, 2, 3] = derive_aes_key [1, 2, 3]) :=
  ⟨rfl, derive_keys_deterministic [1, 2, 3] [1, 2, 3] rfl⟩

/-- C10: `format_amount` terminates without panicking for every amount exactly
when decimals is at most 19 — the divisor 10^decimals then fits in u64 and is
positive, making division and modulo well-defined — while for decimals of 20 or
more the power computation overflows u64.  `decimals` is a CLI-supplied u8
(any value below 256, default 9), so overflowing values are reachable. -/
theorem format_amount_panic_free_iff (decimals : Nat) (h : decimals < 256) :
    (∀ amount : Nat, (format_amount amount decimals).isSome = true) ↔
      decimals ≤ 19 := by
  unfold format_amount pow10Checked
  constructor
  · intro hall
    by_contra hgt
    push_neg at hgt
    have h20 : (10 : Nat) ^ 20 ≤ 10 ^ decimals :=
      Nat.pow_le_pow_right (by norm_num) (by omega)
    have hover : ¬ 10 ^ decimals ≤ U64_MAX := by
      have : U64_MAX < 10 ^ 20 := by norm_num [U64_MAX]
      omega
    have h0 := hall 0
    rw [if_neg hover] at h0
    simp at h0
  · intro hle amount
    have hfit : 10 ^ decimals ≤ U64_MAX := by
      have h19 : (10 : Nat) ^ decimals ≤ 10 ^ 19 :=
        Nat.pow_le_pow_right (by norm_num) hle
      have : (10 : Nat) ^ 19 ≤ U64_MAX := by norm_num [U64_MAX]
      omega
    rw [if_pos hfit]
    rfl

/-- C10 witness: the CLI default of 9 decimals is in the panic-free range. -/
theorem format_amount_panic_free_iff_witness :
    DEFAULT_DECIMALS < 256 ∧
    ((∀ amount : Nat, (format_amount amount DEFAULT_DECIMALS).isSome = true) ↔
      DEFAULT_DECIMALS ≤ 19) :=
  ⟨by decide, format_amount_panic_free_iff DEFAULT_DECIMALS (by decide)⟩

end CTCli
